import Mathlib

/-!
Verification of the botBet probability/decision core against its specification.

The Python sources are embedded shallowly: floats are modelled as exact
rationals (or reals where transcendental functions occur), dict payloads as
structures, and Python `round(x, n)` as exact round-half-to-even on rationals.
Each embedded definition names the source function it models.
-/

namespace BotBet

/-! Rounding: Python's `round` uses banker's rounding (round half to even). -/

/-- Round a rational to the nearest integer, ties going to the even integer.
This models Python's built-in `round` under exact (decimal) arithmetic. -/
def rndHalfEven (q : ℚ) : ℤ :=
  if q - ⌊q⌋ < 1/2 then ⌊q⌋
  else if 1/2 < q - ⌊q⌋ then ⌊q⌋ + 1
  else if Even ⌊q⌋ then ⌊q⌋ else ⌊q⌋ + 1

/-- Python `round(q, n)` under exact rational arithmetic. -/
def roundTo (n : ℕ) (q : ℚ) : ℚ := (rndHalfEven (q * 10 ^ n) : ℚ) / 10 ^ n

theorem rndHalfEven_dist (q : ℚ) : |(rndHalfEven q : ℚ) - q| ≤ 1/2 := by
  have h1 : (⌊q⌋ : ℚ) ≤ q := Int.floor_le q
  have h2 : q < ⌊q⌋ + 1 := Int.lt_floor_add_one q
  unfold rndHalfEven
  split_ifs with ha hb hc <;> rw [abs_le] <;> constructor <;> push_cast <;> linarith

theorem rndHalfEven_nonneg {q : ℚ} (h : 0 ≤ q) : 0 ≤ rndHalfEven q := by
  have h1 : (0:ℤ) ≤ ⌊q⌋ := Int.floor_nonneg.2 h
  unfold rndHalfEven
  split_ifs <;> omega

theorem roundTo_dist (n : ℕ) (q : ℚ) : |roundTo n q - q| ≤ 1 / (2 * 10 ^ n) := by
  have hpow : (0:ℚ) < 10 ^ n := by positivity
  have h := rndHalfEven_dist (q * 10 ^ n)
  have : roundTo n q - q = ((rndHalfEven (q * 10 ^ n) : ℚ) - q * 10 ^ n) / 10 ^ n := by
    field_simp [roundTo]
    ring
  rw [this, abs_div, abs_of_pos hpow, div_le_div_iff₀ hpow (by positivity)]
  calc |(rndHalfEven (q * 10 ^ n) : ℚ) - q * 10 ^ n| * (2 * 10 ^ n)
      ≤ (1/2) * (2 * 10 ^ n) := by
        apply mul_le_mul_of_nonneg_right h (by positivity)
    _ = 1 * 10 ^ n := by ring

theorem roundTo_nonneg (n : ℕ) {q : ℚ} (h : 0 ≤ q) : 0 ≤ roundTo n q := by
  have : (0:ℤ) ≤ rndHalfEven (q * 10 ^ n) :=
    rndHalfEven_nonneg (by positivity)
  unfold roundTo
  positivity

/-! BankrollManager (src/bankroll.py).

`calculate_kelly_stake` returns the bare float `0.0` when `odds <= 1` and
otherwise a dict with keys `percentage`, `amount`, `raw_kelly`. -/

/-- The two return shapes of `BankrollManager.calculate_kelly_stake`. -/
inductive KellyResult where
  | bare (value : ℚ)
  | dict (percentage : ℚ) (amount : ℚ) (raw_kelly : ℚ)
  deriving DecidableEq

/-- Shallow embedding of `BankrollManager.calculate_kelly_stake`
(src/bankroll.py, lines 14-43) for a manager whose state is `bankroll` and
`max_stake_pct`. The kelly multiplier is the hard-coded half-Kelly `0.5`. -/
def calculate_kelly_stake (bankroll max_stake_pct odds prob : ℚ) : KellyResult :=
  if odds ≤ 1 then KellyResult.bare 0
  else
    KellyResult.dict
      (roundTo 2 (max 0 (min (((odds - 1) * prob - (1 - prob)) / (odds - 1) * (1/2)) max_stake_pct) * 100))
      (roundTo 2 (bankroll * max 0 (min (((odds - 1) * prob - (1 - prob)) / (odds - 1) * (1/2)) max_stake_pct)))
      (roundTo 4 (((odds - 1) * prob - (1 - prob)) / (odds - 1)))

/-- C3: the claim asserts that for odds=2.1, prob=0.55 the raw Kelly fraction
(1.1·0.55−0.45)/1.1 is approximately 0.2864 and the half-Kelly approximately
0.1432. The code's raw fraction at this input is 31/220 ≈ 0.1409 (returned,
rounded, as 0.1409) and the half-Kelly is 31/440 ≈ 0.0705: both are more than
0.07 away from the figures the claim states, so the claim is false. -/
theorem C3_counterexample :
    calculate_kelly_stake 1000 (1/20) (21/10) (11/20) =
      KellyResult.dict 5 50 (1409/10000) ∧
    ((21/10 - 1) * (11/20) - (1 - 11/20)) / ((21:ℚ)/10 - 1) = 31/220 ∧
    (2864:ℚ)/10000 - 1409/10000 > 1/10 ∧
    (1432:ℚ)/10000 - 31/440 > 5/100 := by
  refine ⟨?_, by norm_num, by norm_num, by norm_num⟩
  norm_num [calculate_kelly_stake, roundTo, rndHalfEven]

/-- C3 (amended): for odds=2.1, prob=0.55, the hard-coded half-Kelly 0.5,
max_stake_pct=0.05 and bankroll=1000, the raw Kelly fraction
(1.1·0.55−0.45)/1.1 equals 31/220 ≈ 0.1409, the half-Kelly 31/440 ≈ 0.0705,
the clamped stake fraction is 0.05, and the returned recommendation is
percentage 5.0, amount $50.00, raw_kelly 0.1409. -/
theorem C3_amended :
    ((21/10 - 1) * (11/20) - (1 - 11/20)) / ((21:ℚ)/10 - 1) = 31/220 ∧
    (31:ℚ)/220 * (1/2) = 31/440 ∧
    max 0 (min ((31:ℚ)/440) (1/20)) = 1/20 ∧
    (1000:ℚ) * (1/20) = 50 ∧
    calculate_kelly_stake 1000 (1/20) (21/10) (11/20) =
      KellyResult.dict 5 50 (1409/10000) := by
  refine ⟨by norm_num, by norm_num, by norm_num, by norm_num, ?_⟩
  norm_num [calculate_kelly_stake, roundTo, rndHalfEven]

/-- C7: the claim says the stake fraction returned lies in [0, max_stake_pct]
and that the returned amount equals bankroll times that fraction. The returned
fields are rounded (percentage to 2 decimals of a percent, amount to cents),
so the equality fails: with the default manager (bankroll 1000,
max_stake_pct 0.05), odds 2 and probability 0.512345, the clamped fraction is
exactly 0.012345, the returned percentage is 1.23 and the returned amount is
12.34, while bankroll times the returned fraction is 12.30. -/
theorem C7_counterexample :
    (1:ℚ) < 2 ∧ (0:ℚ) ≤ 512345/1000000 ∧ (512345:ℚ)/1000000 ≤ 1 ∧
    calculate_kelly_stake 1000 (1/20) 2 (512345/1000000) =
      KellyResult.dict (123/100) (617/50) (247/10000) ∧
    (1000:ℚ) * ((123/100) / 100) = 123/10 ∧
    (617:ℚ)/50 ≠ 123/10 := by
  refine ⟨by norm_num, by norm_num, by norm_num, ?_, by norm_num, by norm_num⟩
  norm_num [calculate_kelly_stake, roundTo, rndHalfEven, Int.even_iff]

/-- C7 (amended): for odds > 1, probability in [0,1], bankroll ≥ 0 and
max_stake_pct ≥ 0, the unrounded clamped stake fraction lies in
[0, max_stake_pct], the returned percentage and amount are that fraction
(times 100, resp. times bankroll) rounded to 2 decimals — hence each is
nonnegative and within rounding distance (5·10⁻⁵ of a fraction, resp. half a
cent) of the exact value — and when the raw Kelly fraction is ≤ 0 (no edge)
the returned percentage and amount are exactly 0, never negative. -/
theorem C7_theorem (bankroll max_stake_pct odds prob : ℚ)
    (hodds : 1 < odds) (hp0 : 0 ≤ prob) (hp1 : prob ≤ 1)
    (hb : 0 ≤ bankroll) (hm : 0 ≤ max_stake_pct) :
    0 ≤ max 0 (min (((odds - 1) * prob - (1 - prob)) / (odds - 1) * (1/2)) max_stake_pct) ∧
    max 0 (min (((odds - 1) * prob - (1 - prob)) / (odds - 1) * (1/2)) max_stake_pct) ≤ max_stake_pct ∧
    calculate_kelly_stake bankroll max_stake_pct odds prob =
      KellyResult.dict
        (roundTo 2 (max 0 (min (((odds - 1) * prob - (1 - prob)) / (odds - 1) * (1/2)) max_stake_pct) * 100))
        (roundTo 2 (bankroll * max 0 (min (((odds - 1) * prob - (1 - prob)) / (odds - 1) * (1/2)) max_stake_pct)))
        (roundTo 4 (((odds - 1) * prob - (1 - prob)) / (odds - 1))) ∧
    0 ≤ roundTo 2 (max 0 (min (((odds - 1) * prob - (1 - prob)) / (odds - 1) * (1/2)) max_stake_pct) * 100) ∧
    0 ≤ roundTo 2 (bankroll * max 0 (min (((odds - 1) * prob - (1 - prob)) / (odds - 1) * (1/2)) max_stake_pct)) ∧
    |roundTo 2 (bankroll * max 0 (min (((odds - 1) * prob - (1 - prob)) / (odds - 1) * (1/2)) max_stake_pct)) -
      bankroll * max 0 (min (((odds - 1) * prob - (1 - prob)) / (odds - 1) * (1/2)) max_stake_pct)| ≤ 1/200 ∧
    |roundTo 2 (max 0 (min (((odds - 1) * prob - (1 - prob)) / (odds - 1) * (1/2)) max_stake_pct) * 100) / 100 -
      max 0 (min (((odds - 1) * prob - (1 - prob)) / (odds - 1) * (1/2)) max_stake_pct)| ≤ 1/20000 ∧
    (((odds - 1) * prob - (1 - prob)) / (odds - 1) ≤ 0 →
      calculate_kelly_stake bankroll max_stake_pct odds prob =
        KellyResult.dict 0 0 (roundTo 4 (((odds - 1) * prob - (1 - prob)) / (odds - 1)))) := by
  have hne : ¬ odds ≤ 1 := not_le.2 hodds
  have hsafe0 : 0 ≤ max 0 (min (((odds - 1) * prob - (1 - prob)) / (odds - 1) * (1/2)) max_stake_pct) :=
    le_max_left 0 _
  have hsafem : max 0 (min (((odds - 1) * prob - (1 - prob)) / (odds - 1) * (1/2)) max_stake_pct) ≤ max_stake_pct :=
    max_le hm (min_le_right _ _)
  refine ⟨hsafe0, hsafem, ?_, ?_, ?_, ?_, ?_, ?_⟩
  · simp [calculate_kelly_stake, hne]
  · exact roundTo_nonneg 2 (by positivity)
  · exact roundTo_nonneg 2 (mul_nonneg hb hsafe0)
  · exact le_trans (roundTo_dist 2 _) (by norm_num)
  · have h := roundTo_dist 2
      (max 0 (min (((odds - 1) * prob - (1 - prob)) / (odds - 1) * (1/2)) max_stake_pct) * 100)
    rw [show roundTo 2 (max 0 (min (((odds - 1) * prob - (1 - prob)) / (odds - 1) * (1/2)) max_stake_pct) * 100) / 100 -
        max 0 (min (((odds - 1) * prob - (1 - prob)) / (odds - 1) * (1/2)) max_stake_pct) =
        (roundTo 2 (max 0 (min (((odds - 1) * prob - (1 - prob)) / (odds - 1) * (1/2)) max_stake_pct) * 100) -
          max 0 (min (((odds - 1) * prob - (1 - prob)) / (odds - 1) * (1/2)) max_stake_pct) * 100) / 100
      by ring]
    rw [abs_div]
    rw [abs_of_pos (by norm_num : (0:ℚ) < 100)]
    rw [div_le_iff₀ (by norm_num : (0:ℚ) < 100)]
    exact le_trans h (by norm_num)
  · intro hraw
    have hmin : min (((odds - 1) * prob - (1 - prob)) / (odds - 1) * (1/2)) max_stake_pct ≤ 0 := by
      have : ((odds - 1) * prob - (1 - prob)) / (odds - 1) * (1/2) ≤ 0 := by linarith
      exact le_trans (min_le_left _ _) this
    have hsafe : max 0 (min (((odds - 1) * prob - (1 - prob)) / (odds - 1) * (1/2)) max_stake_pct) = 0 :=
      max_eq_left hmin
    have hz : roundTo 2 (0:ℚ) = 0 := by norm_num [roundTo, rndHalfEven]
    simp only [calculate_kelly_stake, if_neg hne, hsafe, zero_mul, mul_zero, hz]

/-- C7 witness: the amended statement instantiated at the default manager,
odds 2.1 and probability 0.55. -/
theorem C7_witness :
    (1:ℚ) < 21/10 ∧ (0:ℚ) ≤ 11/20 ∧ (11:ℚ)/20 ≤ 1 ∧ (0:ℚ) ≤ 1000 ∧ (0:ℚ) ≤ 1/20 ∧
    (0 ≤ max 0 (min (((21/10 - 1) * (11/20) - (1 - 11/20)) / ((21:ℚ)/10 - 1) * (1/2)) (1/20)) ∧
      max 0 (min (((21/10 - 1) * (11/20) - (1 - 11/20)) / ((21:ℚ)/10 - 1) * (1/2)) (1/20)) ≤ 1/20 ∧
      calculate_kelly_stake 1000 (1/20) (21/10) (11/20) =
        KellyResult.dict
          (roundTo 2 (max 0 (min (((21/10 - 1) * (11/20) - (1 - 11/20)) / ((21:ℚ)/10 - 1) * (1/2)) (1/20)) * 100))
          (roundTo 2 (1000 * max 0 (min (((21/10 - 1) * (11/20) - (1 - 11/20)) / ((21:ℚ)/10 - 1) * (1/2)) (1/20))))
          (roundTo 4 (((21/10 - 1) * (11/20) - (1 - 11/20)) / ((21:ℚ)/10 - 1))) ∧
      0 ≤ roundTo 2 (max 0 (min (((21/10 - 1) * (11/20) - (1 - 11/20)) / ((21:ℚ)/10 - 1) * (1/2)) (1/20)) * 100) ∧
      0 ≤ roundTo 2 (1000 * max 0 (min (((21/10 - 1) * (11/20) - (1 - 11/20)) / ((21:ℚ)/10 - 1) * (1/2)) (1/20))) ∧
      |roundTo 2 (1000 * max 0 (min (((21/10 - 1) * (11/20) - (1 - 11/20)) / ((21:ℚ)/10 - 1) * (1/2)) (1/20))) -
        1000 * max 0 (min (((21/10 - 1) * (11/20) - (1 - 11/20)) / ((21:ℚ)/10 - 1) * (1/2)) (1/20))| ≤ 1/200 ∧
      |roundTo 2 (max 0 (min (((21/10 - 1) * (11/20) - (1 - 11/20)) / ((21:ℚ)/10 - 1) * (1/2)) (1/20)) * 100) / 100 -
        max 0 (min (((21/10 - 1) * (11/20) - (1 - 11/20)) / ((21:ℚ)/10 - 1) * (1/2)) (1/20))| ≤ 1/20000 ∧
      (((21/10 - 1) * (11/20) - (1 - 11/20)) / ((21:ℚ)/10 - 1) ≤ 0 →
        calculate_kelly_stake 1000 (1/20) (21/10) (11/20) =
          KellyResult.dict 0 0 (roundTo 4 (((21/10 - 1) * (11/20) - (1 - 11/20)) / ((21:ℚ)/10 - 1))))) :=
  ⟨by norm_num, by norm_num, by norm_num, by norm_num, by norm_num,
    C7_theorem 1000 (1/20) (21/10) (11/20) (by norm_num) (by norm_num) (by norm_num)
      (by norm_num) (by norm_num)⟩

/-- C10: when `odds <= 1`, `calculate_kelly_stake` returns the bare float
`0.0`; for `odds > 1` it returns a dict with keys percentage/amount/raw_kelly.
The two return shapes are distinct, so a caller reading record fields on the
degenerate non-bet case would fail. -/
theorem C10_theorem (bankroll max_stake_pct odds prob : ℚ) :
    (odds ≤ 1 → calculate_kelly_stake bankroll max_stake_pct odds prob = KellyResult.bare 0) ∧
    (1 < odds → ∃ pct amt raw,
      calculate_kelly_stake bankroll max_stake_pct odds prob = KellyResult.dict pct amt raw) ∧
    (∀ v pct amt raw, KellyResult.bare v ≠ KellyResult.dict pct amt raw) := by
  refine ⟨?_, ?_, ?_⟩
  · intro h
    simp [calculate_kelly_stake, h]
  · intro h
    simp only [calculate_kelly_stake, if_neg (not_le.2 h)]
    exact ⟨_, _, _, rfl⟩
  · intro v pct amt raw h
    exact KellyResult.noConfusion h

/-- C10 witness: the degenerate case at odds 1 and the dict case at odds 2. -/
theorem C10_witness :
    ((1:ℚ) ≤ 1 ∧ calculate_kelly_stake 1000 (1/20) 1 (1/2) = KellyResult.bare 0) ∧
    ((1:ℚ) < 2 ∧ ∃ pct amt raw,
      calculate_kelly_stake 1000 (1/20) 2 (1/2) = KellyResult.dict pct amt raw) :=
  ⟨⟨le_refl 1, (C10_theorem 1000 (1/20) 1 (1/2)).1 (le_refl 1)⟩,
    ⟨by norm_num, (C10_theorem 1000 (1/20) 2 (1/2)).2.1 (by norm_num)⟩⟩

/-! PredictionEngine edge detection (src/main_engine.py). -/

/-- Market classification labels used by `PredictionEngine.detect_edge`. -/
inductive MarketStatus where
  | NORMAL
  | RED_TRAP
  | GOLD_GLITCH
  deriving DecidableEq

/-- The per-outcome record built by `PredictionEngine.detect_edge`. -/
structure EdgeAssessment where
  prob : ℚ
  odds : ℚ
  value : ℚ
  is_value : Bool
  market_status : MarketStatus
  deriving DecidableEq

/-- Shallow embedding of `PredictionEngine.calculate_value`
(src/main_engine.py, lines 34-39): the expected value rounded to 4 decimals,
with a guard returning 0 for non-positive odds. -/
def calculate_value (real_prob house_odds : ℚ) : ℚ :=
  if house_odds ≤ 0 then 0 else roundTo 4 (real_prob * house_odds - 1)

/-- The body of the per-outcome loop of `PredictionEngine.detect_edge`
(src/main_engine.py, lines 47-77), for one outcome whose model probability is
`prob` and whose market odds are `quota`. -/
def detect_edge_outcome (prob quota : ℚ) : EdgeAssessment :=
  { prob := prob
    odds := quota
    value := calculate_value prob quota
    is_value := decide (5/100 < calculate_value prob quota)
    market_status :=
      if 65/100 < prob ∧ quota < 125/100 ∧ calculate_value prob quota < -(10/100) then
        MarketStatus.RED_TRAP
      else if 20/100 < calculate_value prob quota ∧ 40/100 < prob then
        MarketStatus.GOLD_GLITCH
      else MarketStatus.NORMAL }

/-- The three 1X2 outcomes. -/
inductive Outcome where
  | one
  | draw
  | two
  deriving DecidableEq

/-- Shallow embedding of `PredictionEngine.detect_edge`
(src/main_engine.py, lines 41-78): an outcome is classified only when its
odds are present in the market-odds map. -/
def detect_edge (predicted_probs : Outcome → ℚ) (market_odds : Outcome → Option ℚ) :
    Outcome → Option EdgeAssessment :=
  fun o => (market_odds o).map (fun quota => detect_edge_outcome (predicted_probs o) quota)

/-- C1: the claim applies the classification thresholds to the exact expected
value p·q−1, but the code applies them to the expected value rounded to 4
decimals. At p = 0.75, q = 1.19996 the exact expected value is
−0.10003 < −0.10, with p > 0.65 and q < 1.25, so the claim classifies the
pair RED_TRAP; the code rounds the expected value to −0.1000, which is not
below −0.10, and classifies it NORMAL. -/
theorem C1_counterexample :
    (65:ℚ)/100 < 3/4 ∧ (29999:ℚ)/25000 < 125/100 ∧ (1:ℚ) < 29999/25000 ∧
    (3:ℚ)/4 * (29999/25000) - 1 < -(10/100) ∧
    detect_edge (fun _ => 3/4) (fun _ => some (29999/25000)) Outcome.one =
      some (detect_edge_outcome (3/4) (29999/25000)) ∧
    (detect_edge_outcome (3/4) (29999/25000)).market_status = MarketStatus.NORMAL := by
  refine ⟨by norm_num, by norm_num, by norm_num, by norm_num, rfl, ?_⟩
  norm_num [detect_edge_outcome, calculate_value, roundTo, rndHalfEven]

/-- C1 (amended): for every model probability p in [0,1] and market odds
q > 1, `detect_edge` classifies the pair by the claimed priority with the
thresholds applied to the ROUNDED expected value e = round₄(p·q−1): RED_TRAP
iff p > 0.65 ∧ q < 1.25 ∧ e < −0.10; otherwise GOLD_GLITCH iff e > 0.20 ∧
p > 0.40; otherwise NORMAL; is_value holds iff e > 0.05; and whenever the
(rounded) trap and gold conditions hold simultaneously the classification is
RED_TRAP. -/
theorem C1_theorem (p q : ℚ) (hp0 : 0 ≤ p) (hp1 : p ≤ 1) (hq : 1 < q) :
    (detect_edge_outcome p q).value = roundTo 4 (p * q - 1) ∧
    ((detect_edge_outcome p q).market_status = MarketStatus.RED_TRAP ↔
      (65/100 < p ∧ q < 125/100 ∧ roundTo 4 (p * q - 1) < -(10/100))) ∧
    ((detect_edge_outcome p q).market_status = MarketStatus.GOLD_GLITCH ↔
      (¬(65/100 < p ∧ q < 125/100 ∧ roundTo 4 (p * q - 1) < -(10/100)) ∧
        20/100 < roundTo 4 (p * q - 1) ∧ 40/100 < p)) ∧
    ((detect_edge_outcome p q).is_value = true ↔ 5/100 < roundTo 4 (p * q - 1)) ∧
    ((65/100 < p ∧ q < 125/100 ∧ roundTo 4 (p * q - 1) < -(10/100)) →
      (detect_edge_outcome p q).market_status = MarketStatus.RED_TRAP) := by
  have hq0 : ¬ q ≤ 0 := not_le.2 (lt_trans zero_lt_one hq)
  have hcv : calculate_value p q = roundTo 4 (p * q - 1) := if_neg hq0
  unfold detect_edge_outcome
  rw [hcv]
  refine ⟨rfl, ?_, ?_, ?_, ?_⟩
  · split_ifs with h1 h2 <;> simp_all
  · split_ifs with h1 h2 <;> simp_all
  · simp
  · intro h
    rw [if_pos h]

/-! DixonColesModel (src/dixon_coles.py).

`calculate_match_probabilities` fills a `max_goals × max_goals` matrix with
`poisson.pmf(x, home) * poisson.pmf(y, away) * tau(x, y, home, away, rho)`,
divides by the matrix sum, and returns the strict-lower-triangle, diagonal and
strict-upper-triangle sums, each rounded to 4 decimals. Every matrix cell
carries the common positive factor `exp (-(home + away))`, which cancels in
the normalisation, so the normalised matrix is the rational function of the
inputs embedded below. -/

/-- Dixon-Coles low-score correction `DixonColesModel.tau`
(src/dixon_coles.py, lines 16-30). -/
def tau (x y : ℕ) (mu lamb rho : ℚ) : ℚ :=
  if x = 0 ∧ y = 0 then 1 - mu * lamb * rho
  else if x = 0 ∧ y = 1 then 1 + mu * rho
  else if x = 1 ∧ y = 0 then 1 + lamb * rho
  else if x = 1 ∧ y = 1 then 1 - rho
  else 1

/-- Poisson pmf at `x` for rate `lam`, with the factor `exp (-lam)` removed:
`lam ^ x / x!`. -/
def poissonCoeff (lam : ℚ) (x : ℕ) : ℚ := lam ^ x / (Nat.factorial x : ℚ)

/-- One cell of the (un-normalised) Dixon-Coles matrix, with the common
factor `exp (-(home + away))` removed. -/
def dcCell (home away rho : ℚ) (x y : ℕ) : ℚ :=
  poissonCoeff home x * poissonCoeff away y * tau x y home away rho

/-- The matrix sum used by the normalisation step `prob_matrix /= sum`. -/
def dcMatrixSum (home away rho : ℚ) (max_goals : ℕ) : ℚ :=
  ∑ x ∈ Finset.range max_goals, ∑ y ∈ Finset.range max_goals, dcCell home away rho x y

/-- Strict-lower-triangle mass (`np.tril(prob_matrix, -1)`): home win. -/
def dcHomeMass (home away rho : ℚ) (max_goals : ℕ) : ℚ :=
  ∑ x ∈ Finset.range max_goals, ∑ y ∈ Finset.range max_goals,
    if y < x then dcCell home away rho x y else 0

/-- Diagonal mass (`np.diag(prob_matrix)`): draw. -/
def dcDrawMass (home away rho : ℚ) (max_goals : ℕ) : ℚ :=
  ∑ x ∈ Finset.range max_goals, ∑ y ∈ Finset.range max_goals,
    if x = y then dcCell home away rho x y else 0

/-- Strict-upper-triangle mass (`np.triu(prob_matrix, 1)`): away win. -/
def dcAwayMass (home away rho : ℚ) (max_goals : ℕ) : ℚ :=
  ∑ x ∈ Finset.range max_goals, ∑ y ∈ Finset.range max_goals,
    if x < y then dcCell home away rho x y else 0

/-- Normalised (unrounded) home-win probability of
`DixonColesModel.calculate_match_probabilities`. -/
def dcHome (home away rho : ℚ) (max_goals : ℕ) : ℚ :=
  dcHomeMass home away rho max_goals / dcMatrixSum home away rho max_goals

/-- Normalised (unrounded) draw probability. -/
def dcDraw (home away rho : ℚ) (max_goals : ℕ) : ℚ :=
  dcDrawMass home away rho max_goals / dcMatrixSum home away rho max_goals

/-- Normalised (unrounded) away-win probability. -/
def dcAway (home away rho : ℚ) (max_goals : ℕ) : ℚ :=
  dcAwayMass home away rho max_goals / dcMatrixSum home away rho max_goals

/-- Shallow embedding of `DixonColesModel.calculate_match_probabilities`
(src/dixon_coles.py, lines 32-60): the returned dict of 1X2 probabilities,
each rounded to 4 decimals. -/
def calculate_match_probabilities (home away rho : ℚ) (max_goals : ℕ) : ℚ × ℚ × ℚ :=
  (roundTo 4 (dcHome home away rho max_goals),
    roundTo 4 (dcDraw home away rho max_goals),
    roundTo 4 (dcAway home away rho max_goals))

theorem poissonCoeff_pos {lam : ℚ} (hl : 0 < lam) (x : ℕ) : 0 < poissonCoeff lam x := by
  unfold poissonCoeff
  have h1 : (0:ℚ) < lam ^ x := pow_pos hl x
  have h2 : (0:ℚ) < (Nat.factorial x : ℚ) := by
    exact_mod_cast Nat.factorial_pos x
  positivity

theorem tau_nonneg {mu lamb rho : ℚ} (hr2 : rho ≤ 1/2)
    (h00 : 0 ≤ 1 - mu * lamb * rho) (h01 : 0 ≤ 1 + mu * rho) (h10 : 0 ≤ 1 + lamb * rho)
    (x y : ℕ) : 0 ≤ tau x y mu lamb rho := by
  unfold tau
  split_ifs <;> first | assumption | linarith | norm_num

theorem dcCell_nonneg {home away rho : ℚ} (hh : 0 < home) (ha : 0 < away)
    (hr2 : rho ≤ 1/2) (h00 : 0 ≤ 1 - home * away * rho) (h01 : 0 ≤ 1 + home * rho)
    (h10 : 0 ≤ 1 + away * rho) (x y : ℕ) : 0 ≤ dcCell home away rho x y :=
  mul_nonneg (mul_nonneg (poissonCoeff_pos hh x).le (poissonCoeff_pos ha y).le)
    (tau_nonneg hr2 h00 h01 h10 x y)

theorem tau_two_two (mu lamb rho : ℚ) : tau 2 2 mu lamb rho = 1 := by
  norm_num [tau]

theorem dcMatrixSum_pos {home away rho : ℚ} {max_goals : ℕ} (hh : 0 < home) (ha : 0 < away)
    (hr2 : rho ≤ 1/2) (h00 : 0 ≤ 1 - home * away * rho) (h01 : 0 ≤ 1 + home * rho)
    (h10 : 0 ≤ 1 + away * rho) (hmg : 3 ≤ max_goals) :
    0 < dcMatrixSum home away rho max_goals := by
  unfold dcMatrixSum
  have hcell := dcCell_nonneg hh ha hr2 h00 h01 h10
  refine Finset.sum_pos' (fun x _ => Finset.sum_nonneg (fun y _ => hcell x y)) ?_
  refine ⟨2, Finset.mem_range.2 (by omega), ?_⟩
  refine Finset.sum_pos' (fun y _ => hcell 2 y) ⟨2, Finset.mem_range.2 (by omega), ?_⟩
  unfold dcCell
  rw [tau_two_two, mul_one]
  exact mul_pos (poissonCoeff_pos hh 2) (poissonCoeff_pos ha 2)

theorem dcMass_partition (home away rho : ℚ) (max_goals : ℕ) :
    dcHomeMass home away rho max_goals + dcDrawMass home away rho max_goals +
      dcAwayMass home away rho max_goals = dcMatrixSum home away rho max_goals := by
  unfold dcHomeMass dcDrawMass dcAwayMass dcMatrixSum
  rw [← Finset.sum_add_distrib, ← Finset.sum_add_distrib]
  refine Finset.sum_congr rfl (fun x _ => ?_)
  rw [← Finset.sum_add_distrib, ← Finset.sum_add_distrib]
  refine Finset.sum_congr rfl (fun y _ => ?_)
  rcases lt_trichotomy x y with h | h | h
  · rw [if_neg (by omega), if_neg (by omega), if_pos h]
    ring
  · rw [if_neg (by omega), if_pos h, if_neg (by omega)]
    ring
  · rw [if_pos h, if_neg (by omega), if_neg (by omega)]
    ring

set_option maxHeartbeats 2000000 in
/-- C2: the claim asserts every returned component is ≥ 0 for all positive
expected goals and rho in [−0.5, 0.5]. At home = 4, away = 0.01,
rho = −0.5 the correction tau(0,1) = 1 + 4·(−0.5) = −1 makes the (0,1) cell
negative and dominant among away cells, and normalising by the (positive)
matrix sum does not repair the sign: the returned away-win probability is
negative (it rounds to −0.0002). -/
theorem C2_counterexample :
    (0:ℚ) < 4 ∧ (0:ℚ) < 1/100 ∧ -(1/2) ≤ -((1:ℚ)/2) ∧ -((1:ℚ)/2) ≤ 1/2 ∧
    (calculate_match_probabilities 4 (1/100) (-(1/2)) 10).2.2 < 0 := by
  refine ⟨by norm_num, by norm_num, le_refl _, by norm_num, ?_⟩
  have hm : dcAwayMass 4 (1/100) (-(1/2)) 10 < 0 := by
    norm_num [dcAwayMass, dcCell, poissonCoeff, tau, Finset.sum_range_succ, Nat.factorial]
  have hs : 0 < dcMatrixSum 4 (1/100) (-(1/2)) 10 := by
    norm_num [dcMatrixSum, dcCell, poissonCoeff, tau, Finset.sum_range_succ, Nat.factorial]
  have hsmall : dcAway 4 (1/100) (-(1/2)) 10 * 10 ^ 4 < -(1/2) := by
    unfold dcAway
    rw [div_mul_eq_mul_div, div_lt_iff₀ hs]
    norm_num [dcAwayMass, dcMatrixSum, dcCell, poissonCoeff, tau,
      Finset.sum_range_succ, Nat.factorial]
  show roundTo 4 (dcAway 4 (1/100) (-(1/2)) 10) < 0
  have hfl : ((rndHalfEven (dcAway 4 (1/100) (-(1/2)) 10 * 10 ^ 4)) : ℚ) < 0 := by
    have hd := rndHalfEven_dist (dcAway 4 (1/100) (-(1/2)) 10 * 10 ^ 4)
    rw [abs_le] at hd
    obtain ⟨hdl, hdr⟩ := hd
    linarith
  unfold roundTo
  exact div_neg_of_neg_of_pos hfl (by positivity)

/-- C2 (amended): for positive expected goals, rho in [−0.5, 0.5] and
max_goals ≥ 3, whenever the three low-score correction factors
1 − home·away·rho, 1 + home·rho and 1 + away·rho are nonnegative (the fourth,
1 − rho, always is on this rho range), the exact normalised probabilities are
each ≥ 0 and sum to exactly 1, and the returned values — each rounded to 4
decimals — are each ≥ 0 and sum to 1 within 1.5·10⁻⁴ (rather than within the
claimed 10⁻⁶). -/
theorem C2_theorem (home away rho : ℚ) (max_goals : ℕ) (hh : 0 < home) (ha : 0 < away)
    (hr1 : -(1/2) ≤ rho) (hr2 : rho ≤ 1/2) (hmg : 3 ≤ max_goals)
    (h00 : 0 ≤ 1 - home * away * rho) (h01 : 0 ≤ 1 + home * rho)
    (h10 : 0 ≤ 1 + away * rho) :
    dcHome home away rho max_goals + dcDraw home away rho max_goals +
      dcAway home away rho max_goals = 1 ∧
    0 ≤ dcHome home away rho max_goals ∧ 0 ≤ dcDraw home away rho max_goals ∧
    0 ≤ dcAway home away rho max_goals ∧
    0 ≤ (calculate_match_probabilities home away rho max_goals).1 ∧
    0 ≤ (calculate_match_probabilities home away rho max_goals).2.1 ∧
    0 ≤ (calculate_match_probabilities home away rho max_goals).2.2 ∧
    |(calculate_match_probabilities home away rho max_goals).1 +
      (calculate_match_probabilities home away rho max_goals).2.1 +
      (calculate_match_probabilities home away rho max_goals).2.2 - 1| ≤ 3/20000 := by
  have hS := dcMatrixSum_pos hh ha hr2 h00 h01 h10 hmg
  have hcell := dcCell_nonneg hh ha hr2 h00 h01 h10
  have hHm : 0 ≤ dcHomeMass home away rho max_goals :=
    Finset.sum_nonneg fun x _ => Finset.sum_nonneg fun y _ => by
      split_ifs
      · exact hcell x y
      · exact le_refl 0
  have hDm : 0 ≤ dcDrawMass home away rho max_goals :=
    Finset.sum_nonneg fun x _ => Finset.sum_nonneg fun y _ => by
      split_ifs
      · exact hcell x y
      · exact le_refl 0
  have hAm : 0 ≤ dcAwayMass home away rho max_goals :=
    Finset.sum_nonneg fun x _ => Finset.sum_nonneg fun y _ => by
      split_ifs
      · exact hcell x y
      · exact le_refl 0
  have hsum : dcHome home away rho max_goals + dcDraw home away rho max_goals +
      dcAway home away rho max_goals = 1 := by
    unfold dcHome dcDraw dcAway
    rw [div_add_div_same, div_add_div_same, dcMass_partition]
    exact div_self (ne_of_gt hS)
  have hH : 0 ≤ dcHome home away rho max_goals := div_nonneg hHm hS.le
  have hD : 0 ≤ dcDraw home away rho max_goals := div_nonneg hDm hS.le
  have hA : 0 ≤ dcAway home away rho max_goals := div_nonneg hAm hS.le
  refine ⟨hsum, hH, hD, hA, roundTo_nonneg 4 hH, roundTo_nonneg 4 hD, roundTo_nonneg 4 hA, ?_⟩
  have e1 := roundTo_dist 4 (dcHome home away rho max_goals)
  have e2 := roundTo_dist 4 (dcDraw home away rho max_goals)
  have e3 := roundTo_dist 4 (dcAway home away rho max_goals)
  rw [abs_le] at e1 e2 e3
  obtain ⟨e1l, e1r⟩ := e1
  obtain ⟨e2l, e2r⟩ := e2
  obtain ⟨e3l, e3r⟩ := e3
  simp only [calculate_match_probabilities]
  rw [abs_le]
  constructor
  · linarith
  · linarith

/-- C2 witness: the amended statement instantiated at the spec's reference
inputs home = 1.45, away = 1.15, rho = −0.1, max_goals = 10. -/
theorem C2_witness :
    (0:ℚ) < 29/20 ∧ (0:ℚ) < 23/20 ∧ -((1:ℚ)/2) ≤ -(1/10) ∧ -((1:ℚ)/10) ≤ 1/2 ∧
    (0:ℚ) ≤ 1 - (29/20) * (23/20) * (-(1/10)) ∧
    (0:ℚ) ≤ 1 + (29/20) * (-(1/10)) ∧ (0:ℚ) ≤ 1 + (23/20) * (-(1/10)) ∧
    (dcHome (29/20) (23/20) (-(1/10)) 10 + dcDraw (29/20) (23/20) (-(1/10)) 10 +
        dcAway (29/20) (23/20) (-(1/10)) 10 = 1 ∧
      0 ≤ dcHome (29/20) (23/20) (-(1/10)) 10 ∧ 0 ≤ dcDraw (29/20) (23/20) (-(1/10)) 10 ∧
      0 ≤ dcAway (29/20) (23/20) (-(1/10)) 10 ∧
      0 ≤ (calculate_match_probabilities (29/20) (23/20) (-(1/10)) 10).1 ∧
      0 ≤ (calculate_match_probabilities (29/20) (23/20) (-(1/10)) 10).2.1 ∧
      0 ≤ (calculate_match_probabilities (29/20) (23/20) (-(1/10)) 10).2.2 ∧
      |(calculate_match_probabilities (29/20) (23/20) (-(1/10)) 10).1 +
        (calculate_match_probabilities (29/20) (23/20) (-(1/10)) 10).2.1 +
        (calculate_match_probabilities (29/20) (23/20) (-(1/10)) 10).2.2 - 1| ≤ 3/20000) :=
  ⟨by norm_num, by norm_num, by norm_num, by norm_num, by norm_num, by norm_num, by norm_num,
    C2_theorem (29/20) (23/20) (-(1/10)) 10 (by norm_num) (by norm_num) (by norm_num)
      (by norm_num) (by norm_num) (by norm_num) (by norm_num) (by norm_num)⟩

/-! PredictionEngine.calculate_poisson_probability (src/main_engine.py,
lines 14-32): the outer product of the two truncated Poisson pmf vectors is
NOT normalised, so the `exp (-(home + away))` factor does not cancel and the
returned triple is real-valued. Rounding of a real to 4 decimals models
Python's `round` on the exact value. -/

/-- Strict-lower-triangle mass of the un-normalised truncated double-Poisson
matrix, with the common factor `exp (-(home + away))` removed. -/
def poissonHomeMass (home away : ℚ) (max_goals : ℕ) : ℚ :=
  ∑ x ∈ Finset.range max_goals, ∑ y ∈ Finset.range max_goals,
    if y < x then poissonCoeff home x * poissonCoeff away y else 0

/-- Diagonal mass of the un-normalised truncated double-Poisson matrix. -/
def poissonDrawMass (home away : ℚ) (max_goals : ℕ) : ℚ :=
  ∑ x ∈ Finset.range max_goals, ∑ y ∈ Finset.range max_goals,
    if x = y then poissonCoeff home x * poissonCoeff away y else 0

/-- Strict-upper-triangle mass of the un-normalised truncated double-Poisson
matrix. -/
def poissonAwayMass (home away : ℚ) (max_goals : ℕ) : ℚ :=
  ∑ x ∈ Finset.range max_goals, ∑ y ∈ Finset.range max_goals,
    if x < y then poissonCoeff home x * poissonCoeff away y else 0

open scoped Classical in
/-- Round a real to the nearest integer, ties going to the even integer. -/
noncomputable def rndHalfEvenR (x : ℝ) : ℤ :=
  if x - ⌊x⌋ < 1/2 then ⌊x⌋
  else if 1/2 < x - ⌊x⌋ then ⌊x⌋ + 1
  else if Even ⌊x⌋ then ⌊x⌋ else ⌊x⌋ + 1

/-- Python `round(x, n)` on an exact real value. -/
noncomputable def roundToR (n : ℕ) (x : ℝ) : ℝ := (rndHalfEvenR (x * 10 ^ n) : ℝ) / 10 ^ n

/-- Shallow embedding of `PredictionEngine.calculate_poisson_probability`
(src/main_engine.py, lines 14-32): each un-normalised triangular mass carries
the factor `exp (-(home + away))`, and the result is rounded to 4 decimals. -/
noncomputable def calculate_poisson_probability (home away : ℚ) (max_goals : ℕ) : ℝ × ℝ × ℝ :=
  (roundToR 4 (Real.exp (-((home : ℝ) + (away : ℝ))) * (poissonHomeMass home away max_goals : ℝ)),
    roundToR 4 (Real.exp (-((home : ℝ) + (away : ℝ))) * (poissonDrawMass home away max_goals : ℝ)),
    roundToR 4 (Real.exp (-((home : ℝ) + (away : ℝ))) * (poissonAwayMass home away max_goals : ℝ)))

theorem roundToR_eq_zero {n : ℕ} {x : ℝ} (h0 : 0 ≤ x) (h : x * 10 ^ n < 1/2) :
    roundToR n x = 0 := by
  have hx0 : (0:ℝ) ≤ x * 10 ^ n := by positivity
  have hfl : ⌊x * 10 ^ n⌋ = 0 := by
    rw [Int.floor_eq_zero_iff]
    exact ⟨hx0, by linarith⟩
  unfold roundToR rndHalfEvenR
  simp only [hfl, Int.cast_zero, sub_zero]
  rw [if_pos h]
  norm_num

theorem exp_neg_fiftyone_lt : Real.exp (-(51:ℝ)) < ((2:ℝ) ^ 51)⁻¹ := by
  have h1 : (2:ℝ) < Real.exp 1 := by
    have := Real.exp_one_gt_d9
    linarith
  have h2 : (2:ℝ) ^ 51 < Real.exp 1 ^ 51 :=
    pow_lt_pow_left₀ h1 (by norm_num) (by norm_num)
  have h3 : Real.exp 1 ^ 51 = Real.exp 51 := by
    rw [← Real.exp_nat_mul]
    norm_num
  rw [Real.exp_neg]
  exact inv_strictAnti₀ (by positivity) (by rw [← h3]; exact h2)

set_option maxHeartbeats 4000000 in
/-- C5: the claim asserts that for every positive pair of expected goals (and
the shared default max_goals = 10) the Dixon-Coles triple at rho = 0 equals
the independent double-Poisson triple. The Dixon-Coles computation normalises
by the truncated matrix sum while calculate_poisson_probability does not, so
they agree only when the truncated mass is close to 1. At home = 50, away = 1
almost all Poisson mass lies beyond 10 goals: the Dixon-Coles home probability
rounds above 0.5 while the double-Poisson home value is below 5·10⁻⁵ and
rounds to exactly 0, so the returned triples differ. -/
theorem C5_counterexample :
    (0:ℚ) < 50 ∧ (0:ℚ) < 1 ∧
    (1:ℚ)/2 < (calculate_match_probabilities 50 1 0 10).1 ∧
    (calculate_poisson_probability 50 1 10).1 = 0 ∧
    (((calculate_match_probabilities 50 1 0 10).1 : ℝ),
      ((calculate_match_probabilities 50 1 0 10).2.1 : ℝ),
      ((calculate_match_probabilities 50 1 0 10).2.2 : ℝ)) ≠
      calculate_poisson_probability 50 1 10 := by
  have hs : 0 < dcMatrixSum 50 1 0 10 := by
    norm_num [dcMatrixSum, dcCell, poissonCoeff, tau, Finset.sum_range_succ, Nat.factorial]
  have hq : (6:ℚ)/10 < dcHome 50 1 0 10 := by
    unfold dcHome
    rw [lt_div_iff₀ hs]
    norm_num [dcHomeMass, dcMatrixSum, dcCell, poissonCoeff, tau,
      Finset.sum_range_succ, Nat.factorial]
  have hdc : (1:ℚ)/2 < (calculate_match_probabilities 50 1 0 10).1 := by
    have hd := roundTo_dist 4 (dcHome 50 1 0 10)
    rw [abs_le] at hd
    obtain ⟨hdl, hdr⟩ := hd
    show (1:ℚ)/2 < roundTo 4 (dcHome 50 1 0 10)
    linarith
  have hC0 : (0:ℚ) < poissonHomeMass 50 1 10 := by
    norm_num [poissonHomeMass, poissonCoeff, Finset.sum_range_succ, Nat.factorial]
  have hCb : (poissonHomeMass 50 1 10) * 10 ^ 4 * 2 < 2 ^ 51 := by
    norm_num [poissonHomeMass, poissonCoeff, Finset.sum_range_succ, Nat.factorial]
  have hpz : (calculate_poisson_probability 50 1 10).1 = 0 := by
    show roundToR 4 (Real.exp (-(((50:ℚ) : ℝ) + ((1:ℚ) : ℝ))) *
      (poissonHomeMass 50 1 10 : ℝ)) = 0
    have hC0R : (0:ℝ) < (poissonHomeMass 50 1 10 : ℝ) := by exact_mod_cast hC0
    have hexp : Real.exp (-(((50:ℚ) : ℝ) + ((1:ℚ) : ℝ))) < ((2:ℝ) ^ 51)⁻¹ := by
      have : -(((50:ℚ) : ℝ) + ((1:ℚ) : ℝ)) = -(51:ℝ) := by push_cast; ring
      rw [this]
      exact exp_neg_fiftyone_lt
    refine roundToR_eq_zero (le_of_lt (mul_pos (Real.exp_pos _) hC0R)) ?_
    have hCbR : ((poissonHomeMass 50 1 10 : ℝ)) * 10 ^ 4 * 2 < 2 ^ 51 := by
      exact_mod_cast hCb
    have step : Real.exp (-(((50:ℚ) : ℝ) + ((1:ℚ) : ℝ))) * (poissonHomeMass 50 1 10 : ℝ) <
        ((2:ℝ) ^ 51)⁻¹ * (poissonHomeMass 50 1 10 : ℝ) :=
      mul_lt_mul_of_pos_right hexp hC0R
    have step2 : ((2:ℝ) ^ 51)⁻¹ * (poissonHomeMass 50 1 10 : ℝ) * 10 ^ 4 < 1/2 := by
      have h2pos : (0:ℝ) < 2 ^ 51 := by positivity
      have hrw : ((2:ℝ) ^ 51)⁻¹ * (poissonHomeMass 50 1 10 : ℝ) * 10 ^ 4 =
          ((poissonHomeMass 50 1 10 : ℝ) * 10 ^ 4) / 2 ^ 51 := by
        field_simp
      rw [hrw, div_lt_iff₀ h2pos]
      linarith
    calc Real.exp (-(((50:ℚ) : ℝ) + ((1:ℚ) : ℝ))) * (poissonHomeMass 50 1 10 : ℝ) * 10 ^ 4
        ≤ ((2:ℝ) ^ 51)⁻¹ * (poissonHomeMass 50 1 10 : ℝ) * 10 ^ 4 := by
          apply mul_le_mul_of_nonneg_right step.le (by positivity)
      _ < 1/2 := step2
  refine ⟨by norm_num, by norm_num, hdc, hpz, ?_⟩
  intro hEq
  have h1 : ((calculate_match_probabilities 50 1 0 10).1 : ℝ) =
      (calculate_poisson_probability 50 1 10).1 := congrArg Prod.fst hEq
  rw [hpz] at h1
  have : ((1:ℚ)/2 : ℝ) < ((calculate_match_probabilities 50 1 0 10).1 : ℝ) := by
    exact_mod_cast hdc
  rw [h1] at this
  norm_num at this

theorem tau_rho_zero (x y : ℕ) (mu lamb : ℚ) : tau x y mu lamb 0 = 1 := by
  unfold tau
  split_ifs <;> ring

/-- C5 (amended): for rho = 0 the correction tau is identically 1, so the
un-normalised Dixon-Coles masses coincide with the truncated double-Poisson
masses; the unrounded double-Poisson components of
`calculate_poisson_probability` therefore equal the unrounded normalised
Dixon-Coles components of `calculate_match_probabilities` SCALED by the
truncated total mass exp(-(home+away))·dcMatrixSum — they are proportional,
not equal, and the returned triples agree only when that mass is close to 1. -/
theorem C5_theorem :
    (∀ (x y : ℕ) (mu lamb : ℚ), tau x y mu lamb 0 = 1) ∧
    (∀ (home away : ℚ) (max_goals : ℕ), 0 < home → 0 < away → 0 < max_goals →
      poissonHomeMass home away max_goals = dcHomeMass home away 0 max_goals ∧
      poissonDrawMass home away max_goals = dcDrawMass home away 0 max_goals ∧
      poissonAwayMass home away max_goals = dcAwayMass home away 0 max_goals ∧
      Real.exp (-((home : ℝ) + (away : ℝ))) * (poissonHomeMass home away max_goals : ℝ) =
        (Real.exp (-((home : ℝ) + (away : ℝ))) * (dcMatrixSum home away 0 max_goals : ℝ)) *
          (dcHome home away 0 max_goals : ℝ) ∧
      Real.exp (-((home : ℝ) + (away : ℝ))) * (poissonDrawMass home away max_goals : ℝ) =
        (Real.exp (-((home : ℝ) + (away : ℝ))) * (dcMatrixSum home away 0 max_goals : ℝ)) *
          (dcDraw home away 0 max_goals : ℝ) ∧
      Real.exp (-((home : ℝ) + (away : ℝ))) * (poissonAwayMass home away max_goals : ℝ) =
        (Real.exp (-((home : ℝ) + (away : ℝ))) * (dcMatrixSum home away 0 max_goals : ℝ)) *
          (dcAway home away 0 max_goals : ℝ)) := by
  have hcell : ∀ (home away : ℚ) (x y : ℕ),
      dcCell home away 0 x y = poissonCoeff home x * poissonCoeff away y := by
    intro home away x y
    unfold dcCell
    rw [tau_rho_zero, mul_one]
  refine ⟨tau_rho_zero, ?_⟩
  intro home away max_goals hh ha hmg
  have hH : poissonHomeMass home away max_goals = dcHomeMass home away 0 max_goals := by
    unfold poissonHomeMass dcHomeMass
    refine Finset.sum_congr rfl fun x _ => Finset.sum_congr rfl fun y _ => ?_
    rw [hcell]
  have hD : poissonDrawMass home away max_goals = dcDrawMass home away 0 max_goals := by
    unfold poissonDrawMass dcDrawMass
    refine Finset.sum_congr rfl fun x _ => Finset.sum_congr rfl fun y _ => ?_
    rw [hcell]
  have hA : poissonAwayMass home away max_goals = dcAwayMass home away 0 max_goals := by
    unfold poissonAwayMass dcAwayMass
    refine Finset.sum_congr rfl fun x _ => Finset.sum_congr rfl fun y _ => ?_
    rw [hcell]
  have hT : 0 < dcMatrixSum home away 0 max_goals := by
    unfold dcMatrixSum
    refine Finset.sum_pos (fun x _ => ?_) ⟨0, Finset.mem_range.2 hmg⟩
    refine Finset.sum_pos (fun y _ => ?_) ⟨0, Finset.mem_range.2 hmg⟩
    rw [hcell]
    exact mul_pos (poissonCoeff_pos hh x) (poissonCoeff_pos ha y)
  have hTne : ((dcMatrixSum home away 0 max_goals : ℚ) : ℝ) ≠ 0 := by
    exact_mod_cast ne_of_gt hT
  refine ⟨hH, hD, hA, ?_, ?_, ?_⟩
  · rw [hH, dcHome, Rat.cast_div]
    field_simp
    ring
  · rw [hD, dcDraw, Rat.cast_div]
    field_simp
    ring
  · rw [hA, dcAway, Rat.cast_div]
    field_simp
    ring

/-- C5 witness: the amended statement instantiated at home = 1.45,
away = 1.15, max_goals = 10. -/
theorem C5_witness :
    (0:ℚ) < 29/20 ∧ (0:ℚ) < 23/20 ∧ (0:ℕ) < 10 ∧
    (poissonHomeMass (29/20) (23/20) 10 = dcHomeMass (29/20) (23/20) 0 10 ∧
      poissonDrawMass (29/20) (23/20) 10 = dcDrawMass (29/20) (23/20) 0 10 ∧
      poissonAwayMass (29/20) (23/20) 10 = dcAwayMass (29/20) (23/20) 0 10 ∧
      Real.exp (-(((29/20 : ℚ) : ℝ) + ((23/20 : ℚ) : ℝ))) * (poissonHomeMass (29/20) (23/20) 10 : ℝ) =
        (Real.exp (-(((29/20 : ℚ) : ℝ) + ((23/20 : ℚ) : ℝ))) * (dcMatrixSum (29/20) (23/20) 0 10 : ℝ)) *
          (dcHome (29/20) (23/20) 0 10 : ℝ) ∧
      Real.exp (-(((29/20 : ℚ) : ℝ) + ((23/20 : ℚ) : ℝ))) * (poissonDrawMass (29/20) (23/20) 10 : ℝ) =
        (Real.exp (-(((29/20 : ℚ) : ℝ) + ((23/20 : ℚ) : ℝ))) * (dcMatrixSum (29/20) (23/20) 0 10 : ℝ)) *
          (dcDraw (29/20) (23/20) 0 10 : ℝ) ∧
      Real.exp (-(((29/20 : ℚ) : ℝ) + ((23/20 : ℚ) : ℝ))) * (poissonAwayMass (29/20) (23/20) 10 : ℝ) =
        (Real.exp (-(((29/20 : ℚ) : ℝ) + ((23/20 : ℚ) : ℝ))) * (dcMatrixSum (29/20) (23/20) 0 10 : ℝ)) *
          (dcAway (29/20) (23/20) 0 10 : ℝ)) :=
  ⟨by norm_num, by norm_num, by norm_num,
    C5_theorem.2 (29/20) (23/20) 10 (by norm_num) (by norm_num) (by norm_num)⟩

/-- C1 witness: the amended statement instantiated at the spec's RED_TRAP
example, p = 0.70 and q = 1.15. -/
theorem C1_witness :
    (0:ℚ) ≤ 7/10 ∧ (7:ℚ)/10 ≤ 1 ∧ (1:ℚ) < 23/20 ∧
    ((detect_edge_outcome (7/10) (23/20)).value = roundTo 4 ((7/10) * (23/20) - 1) ∧
      ((detect_edge_outcome (7/10) (23/20)).market_status = MarketStatus.RED_TRAP ↔
        (65/100 < (7:ℚ)/10 ∧ (23:ℚ)/20 < 125/100 ∧ roundTo 4 ((7/10) * (23/20) - 1) < -(10/100))) ∧
      ((detect_edge_outcome (7/10) (23/20)).market_status = MarketStatus.GOLD_GLITCH ↔
        (¬(65/100 < (7:ℚ)/10 ∧ (23:ℚ)/20 < 125/100 ∧ roundTo 4 ((7/10) * (23/20) - 1) < -(10/100)) ∧
          20/100 < roundTo 4 ((7/10) * (23/20) - 1) ∧ 40/100 < (7:ℚ)/10)) ∧
      ((detect_edge_outcome (7/10) (23/20)).is_value = true ↔
        5/100 < roundTo 4 ((7/10) * (23/20) - 1)) ∧
      ((65/100 < (7:ℚ)/10 ∧ (23:ℚ)/20 < 125/100 ∧ roundTo 4 ((7/10) * (23/20) - 1) < -(10/100)) →
        (detect_edge_outcome (7/10) (23/20)).market_status = MarketStatus.RED_TRAP)) :=
  ⟨by norm_num, by norm_num, by norm_num,
    C1_theorem (7/10) (23/20) (by norm_num) (by norm_num) (by norm_num)⟩

/-! Backtester.run_backtest (src/backtester.py, lines 54-102).

Each window resets the predictor state (`self.ml._team_stats = {}`,
`self.ml.is_trained = False`), refits it from scratch on
`df.iloc[w*test_size : w*test_size + window_size]` and evaluates on the next
`test_size` rows, so the state used to score window w is a function of the
training slice alone. The classifier itself (scikit-learn
GradientBoostingClassifier inside ValueBetML) is external library code and is
therefore a parameter `fit`/`predictRow` of the embedding. -/

/-- One row of the historical dataframe, with the fields `run_backtest`
reads: team names, full-time result, and the three B365 odds columns
(absent odds are skipped). -/
structure Fixture where
  homeTeam : String
  awayTeam : String
  ftr : String
  b365h : Option ℚ
  b365d : Option ℚ
  b365a : Option ℚ
  deriving DecidableEq

/-- The training slice for window w:
`df.iloc[w*test_size : w*test_size + window_size]`. -/
def trainWindow (window_size test_size : ℕ) (df : List Fixture) (w : ℕ) : List Fixture :=
  (df.drop (w * test_size)).take window_size

/-- The test slice for window w:
`df.iloc[w*test_size + window_size : min (.. + test_size) (len df)]`. -/
def testWindow (window_size test_size : ℕ) (df : List Fixture) (w : ℕ) : List Fixture :=
  (df.drop (w * test_size + window_size)).take test_size

/-- The model probabilities `run_backtest` computes for the test fixtures of
window w: the predictor state is fit from the training slice alone, and each
test row is scored against that state. `fit` and `predictRow` stand for the
external scikit-learn classifier together with the feature/statistics
pipeline of ValueBetML. -/
def windowPredictions {M : Type} (fit : List Fixture → M)
    (predictRow : M → Fixture → ℚ × ℚ × ℚ)
    (window_size test_size : ℕ) (df : List Fixture) (w : ℕ) : List (ℚ × ℚ × ℚ) :=
  (testWindow window_size test_size df w).map
    (predictRow (fit (trainWindow window_size test_size df w)))

theorem get?_take_eq (xs : List Fixture) (b i : ℕ) :
    (xs.take b).get? i = if i < b then xs.get? i else none := by
  split_ifs with h
  · exact List.get?_take h
  · refine List.get?_eq_none.2 ?_
    calc (xs.take b).length ≤ b := by
          rw [List.length_take]
          exact min_le_left b xs.length
      _ ≤ i := by omega

theorem drop_take_eq_of_agree {df df' : List Fixture} {a b : ℕ}
    (h : ∀ i, i < a + b → df.get? i = df'.get? i) :
    (df.drop a).take b = (df'.drop a).take b := by
  apply List.ext_get?
  intro i
  rw [get?_take_eq, get?_take_eq]
  split_ifs with hib
  · rw [List.get?_drop, List.get?_drop]
    exact h (a + i) (by omega)
  · rfl

/-- Fixture helpers used only to state concrete instances. -/
def fxRow (home away res : String) : Fixture :=
  { homeTeam := home, awayTeam := away, ftr := res,
    b365h := some 2, b365d := some 3, b365a := some 4 }

/-- C4: the claim allows the corrupted region to start at the test-window
start, i.e. it includes the test rows themselves — but the prediction for a
test row reads that row (its team fields feed the feature lookup), so
corrupting a test fixture changes its prediction. With window_size = 1,
test_size = 1 and w = 0 the test window starts at index 1; the histories
[A-B, C-D] and [A-B, E-D] agree on every index below 1, yet a classifier that
looks at the home team of the scored row yields different test predictions. -/
theorem C4_counterexample :
    (∀ i, i < 0 * 1 + 1 →
      ([fxRow "A" "B" "H", fxRow "C" "D" "H"].get? i =
        [fxRow "A" "B" "H", fxRow "E" "D" "H"].get? i)) ∧
    windowPredictions (fun _ => ()) (fun _ f => if f.homeTeam = "C" then (1, 0, 0) else (0, 0, 1))
        1 1 [fxRow "A" "B" "H", fxRow "C" "D" "H"] 0 ≠
      windowPredictions (fun _ => ()) (fun _ f => if f.homeTeam = "C" then (1, 0, 0) else (0, 0, 1))
        1 1 [fxRow "A" "B" "H", fxRow "E" "D" "H"] 0 := by
  constructor
  · intro i hi
    interval_cases i
    rfl
  · intro h
    simp [windowPredictions, testWindow, trainWindow, fxRow] at h

/-- C4 (amended): the Backtester fits the predictor for window w from the
fixtures at indices [w·test_size, w·test_size + window_size) only — for every
classifier, two histories agreeing below the test-window start yield the same
training slice, hence the same fitted state — and the model probabilities
computed for the test fixtures are unchanged under any modification confined
to indices ≥ the test-window END (w·test_size + window_size + test_size),
i.e. any corruption that leaves the training and test rows themselves
intact. -/
theorem C4_theorem (M : Type) (fit : List Fixture → M)
    (predictRow : M → Fixture → ℚ × ℚ × ℚ)
    (window_size test_size : ℕ) (df df' : List Fixture) (w : ℕ) :
    ((∀ i, i < w * test_size + window_size → df.get? i = df'.get? i) →
      trainWindow window_size test_size df w = trainWindow window_size test_size df' w) ∧
    ((∀ i, i < w * test_size + window_size + test_size → df.get? i = df'.get? i) →
      windowPredictions fit predictRow window_size test_size df w =
        windowPredictions fit predictRow window_size test_size df' w) := by
  constructor
  · intro h
    unfold trainWindow
    exact drop_take_eq_of_agree (fun i hi => h i (by omega))
  · intro h
    have htrain : trainWindow window_size test_size df w =
        trainWindow window_size test_size df' w := by
      unfold trainWindow
      exact drop_take_eq_of_agree (fun i hi => h i (by omega))
    have htest : testWindow window_size test_size df w =
        testWindow window_size test_size df' w := by
      unfold testWindow
      exact drop_take_eq_of_agree (fun i hi => h i (by omega))
    unfold windowPredictions
    rw [htrain, htest]

/-- C4 witness: the amended statement instantiated at window_size = 2,
test_size = 1, w = 0 on two four-row histories that differ only at index 3
(beyond the test-window end). -/
theorem C4_witness :
    ((∀ i, i < 0 * 1 + 2 →
        ([fxRow "A" "B" "H", fxRow "C" "D" "A", fxRow "E" "F" "D", fxRow "G" "H" "H"].get? i =
          [fxRow "A" "B" "H", fxRow "C" "D" "A", fxRow "E" "F" "D", fxRow "Z" "Z" "A"].get? i)) ∧
      trainWindow 2 1 [fxRow "A" "B" "H", fxRow "C" "D" "A", fxRow "E" "F" "D", fxRow "G" "H" "H"] 0 =
        trainWindow 2 1 [fxRow "A" "B" "H", fxRow "C" "D" "A", fxRow "E" "F" "D", fxRow "Z" "Z" "A"] 0) ∧
    ((∀ i, i < 0 * 1 + 2 + 1 →
        ([fxRow "A" "B" "H", fxRow "C" "D" "A", fxRow "E" "F" "D", fxRow "G" "H" "H"].get? i =
          [fxRow "A" "B" "H", fxRow "C" "D" "A", fxRow "E" "F" "D", fxRow "Z" "Z" "A"].get? i)) ∧
      windowPredictions (fun df => df.length) (fun m f => ((m : ℚ), 0, if f.homeTeam = "E" then 1 else 0))
          2 1 [fxRow "A" "B" "H", fxRow "C" "D" "A", fxRow "E" "F" "D", fxRow "G" "H" "H"] 0 =
        windowPredictions (fun df => df.length) (fun m f => ((m : ℚ), 0, if f.homeTeam = "E" then 1 else 0))
          2 1 [fxRow "A" "B" "H", fxRow "C" "D" "A", fxRow "E" "F" "D", fxRow "Z" "Z" "A"] 0) :=
  ⟨⟨by intro i hi; interval_cases i <;> rfl,
      (C4_theorem ℕ (fun df => df.length) (fun m f => ((m : ℚ), 0, if f.homeTeam = "E" then 1 else 0))
        2 1 _ _ 0).1 (by intro i hi; interval_cases i <;> rfl)⟩,
    ⟨by intro i hi; interval_cases i <;> rfl,
      (C4_theorem ℕ (fun df => df.length) (fun m f => ((m : ℚ), 0, if f.homeTeam = "E" then 1 else 0))
        2 1 _ _ 0).2 (by intro i hi; interval_cases i <;> rfl)⟩⟩

/-! Sharpe: `Backtester._calculate_sharpe` (src/backtester.py, lines 154-171)
and `ValueSimulator._calculate_sharpe` (src/simulator.py, lines 82-90) share
the same logic: 0.0 for fewer than 2 returns and for zero standard deviation,
otherwise (mean − risk_free) / std × sqrt(365), with numpy's population
standard deviation. -/

/-- `np.mean` of a list of returns. -/
def listMean (l : List ℚ) : ℚ := l.sum / l.length

/-- The square of `np.std`: the population variance (mean squared
deviation). The guard `std == 0` is equivalent to this being 0. -/
def listVariance (l : List ℚ) : ℚ :=
  ((l.map (fun x => (x - listMean l) ^ 2)).sum) / l.length

open scoped Classical in
/-- Shallow embedding of `Backtester._calculate_sharpe`. -/
noncomputable def backtester_calculate_sharpe (risk_free_rate : ℚ) (returns : List ℚ) : ℝ :=
  if returns.length < 2 then 0
  else if Real.sqrt ((listVariance returns : ℚ) : ℝ) = 0 then 0
  else (((listMean returns : ℚ) : ℝ) - (risk_free_rate : ℝ)) /
    Real.sqrt ((listVariance returns : ℚ) : ℝ) * Real.sqrt 365

open scoped Classical in
/-- Shallow embedding of `ValueSimulator._calculate_sharpe`. -/
noncomputable def simulator_calculate_sharpe (risk_free : ℚ) (returns : List ℚ) : ℝ :=
  if returns.length < 2 then 0
  else if Real.sqrt ((listVariance returns : ℚ) : ℝ) = 0 then 0
  else (((listMean returns : ℚ) : ℝ) - (risk_free : ℝ)) /
    Real.sqrt ((listVariance returns : ℚ) : ℝ) * Real.sqrt 365

theorem listVariance_nonneg (l : List ℚ) : 0 ≤ listVariance l := by
  unfold listVariance
  apply div_nonneg
  · apply List.sum_nonneg
    intro x hx
    obtain ⟨y, _, rfl⟩ := List.mem_map.1 hx
    positivity
  · exact Nat.cast_nonneg _

theorem listSum_const {l : List ℚ} {c : ℚ} (h : ∀ x ∈ l, x = c) :
    l.sum = l.length * c := by
  induction l with
  | nil => simp
  | cons a t ih =>
    have ha : a = c := h a (List.mem_cons_self a t)
    have ht := ih (fun x hx => h x (List.mem_cons_of_mem a hx))
    simp only [List.sum_cons, List.length_cons, ha, ht]
    push_cast
    ring

theorem listVariance_const {l : List ℚ} {c : ℚ} (h : ∀ x ∈ l, x = c) :
    listVariance l = 0 := by
  rcases l with _ | ⟨a, t⟩
  · simp [listVariance]
  · have hlen : ((a :: t).length : ℚ) ≠ 0 := by
      simp only [List.length_cons]
      push_cast
      positivity
    have hmean : listMean (a :: t) = c := by
      unfold listMean
      rw [listSum_const h, mul_comm, mul_div_assoc, div_self hlen, mul_one]
    unfold listVariance
    rw [List.sum_eq_zero, zero_div]
    intro x hx
    obtain ⟨y, hy, rfl⟩ := List.mem_map.1 hx
    rw [hmean, h y hy]
    ring

/-- C8: both Sharpe implementations return exactly 0 for an empty list, a
singleton list and any zero-variance list (in particular any constant list),
and for length ≥ 2 with nonzero variance they return
(mean − risk_free)/std × sqrt 365. In the real-valued embedding no NaN/Inf
exists; the guards make the division well-defined. -/
theorem C8_theorem (rf : ℚ) :
    backtester_calculate_sharpe rf [] = 0 ∧
    (∀ x, backtester_calculate_sharpe rf [x] = 0) ∧
    (∀ l, listVariance l = 0 → backtester_calculate_sharpe rf l = 0) ∧
    (∀ l c, (∀ x ∈ l, x = c) → backtester_calculate_sharpe rf l = 0) ∧
    (∀ l, 2 ≤ l.length → listVariance l ≠ 0 →
      backtester_calculate_sharpe rf l =
        (((listMean l : ℚ) : ℝ) - (rf : ℝ)) /
          Real.sqrt ((listVariance l : ℚ) : ℝ) * Real.sqrt 365) ∧
    simulator_calculate_sharpe rf [] = 0 ∧
    (∀ x, simulator_calculate_sharpe rf [x] = 0) ∧
    (∀ l, listVariance l = 0 → simulator_calculate_sharpe rf l = 0) ∧
    (∀ l c, (∀ x ∈ l, x = c) → simulator_calculate_sharpe rf l = 0) ∧
    (∀ l, 2 ≤ l.length → listVariance l ≠ 0 →
      simulator_calculate_sharpe rf l =
        (((listMean l : ℚ) : ℝ) - (rf : ℝ)) /
          Real.sqrt ((listVariance l : ℚ) : ℝ) * Real.sqrt 365) := by
  have hzero : ∀ l : List ℚ, listVariance l = 0 →
      Real.sqrt ((listVariance l : ℚ) : ℝ) = 0 := by
    intro l hv
    rw [hv]
    simp
  have hformula : ∀ l : List ℚ, 2 ≤ l.length → listVariance l ≠ 0 →
      Real.sqrt ((listVariance l : ℚ) : ℝ) ≠ 0 := by
    intro l hlen hv
    have hpos : (0:ℚ) < listVariance l := lt_of_le_of_ne (listVariance_nonneg l) (Ne.symm hv)
    have : (0:ℝ) < ((listVariance l : ℚ) : ℝ) := by exact_mod_cast hpos
    exact ne_of_gt (Real.sqrt_pos.2 this)
  refine ⟨?_, ?_, ?_, ?_, ?_, ?_, ?_, ?_, ?_, ?_⟩
  · simp [backtester_calculate_sharpe]
  · intro x
    simp [backtester_calculate_sharpe]
  · intro l hv
    unfold backtester_calculate_sharpe
    split_ifs with h1 h2
    · rfl
    · rfl
    · exact absurd (hzero l hv) h2
  · intro l c hc
    unfold backtester_calculate_sharpe
    split_ifs with h1 h2
    · rfl
    · rfl
    · exact absurd (hzero l (listVariance_const hc)) h2
  · intro l hlen hv
    unfold backtester_calculate_sharpe
    rw [if_neg (not_lt.2 hlen), if_neg (hformula l hlen hv)]
  · simp [simulator_calculate_sharpe]
  · intro x
    simp [simulator_calculate_sharpe]
  · intro l hv
    unfold simulator_calculate_sharpe
    split_ifs with h1 h2
    · rfl
    · rfl
    · exact absurd (hzero l hv) h2
  · intro l c hc
    unfold simulator_calculate_sharpe
    split_ifs with h1 h2
    · rfl
    · rfl
    · exact absurd (hzero l (listVariance_const hc)) h2
  · intro l hlen hv
    unfold simulator_calculate_sharpe
    rw [if_neg (not_lt.2 hlen), if_neg (hformula l hlen hv)]

/-- C8 witness: the theorem applied at risk-free 0, to the constant list
[1,1,1] (zero variance) and to [0, 1/2] (variance 1/16 ≠ 0). -/
theorem C8_witness :
    (listVariance [1, 1, 1] = 0 ∧ backtester_calculate_sharpe 0 [1, 1, 1] = 0) ∧
    (2 ≤ ([0, 1/2] : List ℚ).length ∧ listVariance [0, 1/2] ≠ 0 ∧
      simulator_calculate_sharpe 0 [0, 1/2] =
        (((listMean [0, 1/2] : ℚ) : ℝ) - ((0:ℚ) : ℝ)) /
          Real.sqrt ((listVariance [0, 1/2] : ℚ) : ℝ) * Real.sqrt 365) :=
  ⟨⟨by norm_num [listVariance, listMean],
      (C8_theorem 0).2.2.1 [1, 1, 1] (by norm_num [listVariance, listMean])⟩,
    ⟨by norm_num, by norm_num [listVariance, listMean],
      (C8_theorem 0).2.2.2.2.2.2.2.2.2 [0, 1/2] (by norm_num)
        (by norm_num [listVariance, listMean])⟩⟩

/-! RLEngine.train_step (src/rl_engine.py, lines 172-203) with
AbsoluteLoss.forward (lines 109-130) at batch size one. The LSTM forward
pass (`self.model`, torch library code over the learnt weights) is a
parameter `forward` mapping the 14-dimensional feature vector to the
softmaxed output triple. `train_step` performs no validation of
`target_idx`: it hands the target straight to `nn.CrossEntropyLoss`, which
raises an out-of-bounds error for a target outside {0,1,2}; that uncaught
library exception propagating out of `train_step` is modelled as the
`torchTargetOutOfBounds` error, distinct from the `invalidTarget` error kind
the specification prescribes (no such kind exists anywhere in the code). -/

/-- How a `train_step` call can fail. -/
inductive TrainError where
  | torchTargetOutOfBounds
  | invalidTarget
  deriving DecidableEq

/-- Zero out the target entry of the (softmaxed) prediction triple, as
`wrong_confidence.scatter_(1, targets.view(-1, 1), 0.0)` does. -/
noncomputable def zeroOutTargetR (p : Fin 3 → ℝ) (t : Fin 3) : Fin 3 → ℝ :=
  fun j => if j = t then 0 else p j

/-- `wrong_confidence.max(dim=1)`: the largest entry after zeroing the
target (hence always ≥ 0). -/
noncomputable def maxWrongProbR (p : Fin 3 → ℝ) (t : Fin 3) : ℝ :=
  max (zeroOutTargetR p t 0) (max (zeroOutTargetR p t 1) (zeroOutTargetR p t 2))

/-- `AbsoluteLoss.forward` at batch size one: `nn.CrossEntropyLoss` applied
to the already-softmaxed outputs (log-sum-exp minus the target entry) plus
the squared max-wrong-probability regret penalty scaled by `penalty_factor`
(the mean over a one-element batch is the value itself). -/
noncomputable def absoluteLossSingle (penalty_factor : ℚ) (o : Fin 3 → ℝ) (t : Fin 3) : ℝ :=
  (Real.log (∑ j : Fin 3, Real.exp (o j)) - o t) +
    maxWrongProbR o t ^ 2 * (penalty_factor : ℝ)

/-- Shallow embedding of `RLEngine.train_step`: the model output on the
given features is scored by `AbsoluteLoss` with penalty factor 5 against the
integer `target_idx`; a target outside {0,1,2} makes the torch loss raise. -/
noncomputable def train_step (forward : (Fin 14 → ℚ) → Fin 3 → ℝ)
    (features : Fin 14 → ℚ) (target_idx : ℤ) : Except TrainError ℝ :=
  if h : 0 ≤ target_idx ∧ target_idx < 3 then
    Except.ok (absoluteLossSingle 5 (forward features) ⟨target_idx.toNat, by omega⟩)
  else Except.error TrainError.torchTargetOutOfBounds

/-- C9: the claim says `train_step` does not raise on a malformed
target_index and instead fails with an InvalidTarget error kind. The code
performs no such validation: at target_idx = 3 it propagates the torch
out-of-bounds exception, which is not the designed InvalidTarget failure. -/
theorem C9_counterexample :
    train_step (fun _ _ => (1:ℝ)/3) (fun _ => 0) 3 =
      Except.error TrainError.torchTargetOutOfBounds ∧
    TrainError.torchTargetOutOfBounds ≠ TrainError.invalidTarget := by
  constructor
  · unfold train_step
    rw [dif_neg (by omega)]
  · intro h
    exact TrainError.noConfusion h

/-- C9 (amended): for every model forward pass, feature vector and integer
target_idx, `train_step` propagates the torch target-out-of-bounds error
when target_idx is outside {0,1,2} (there is no InvalidTarget error kind in
the code), and on a valid target it returns a loss value ≥ 0 from its single
optimizer update: the cross-entropy term log(Σ exp) − o(t) is nonnegative
and the regret penalty is a square times the positive factor 5. -/
theorem C9_theorem (forward : (Fin 14 → ℚ) → Fin 3 → ℝ)
    (features : Fin 14 → ℚ) (target_idx : ℤ) :
    ((target_idx < 0 ∨ 3 ≤ target_idx) →
      train_step forward features target_idx =
        Except.error TrainError.torchTargetOutOfBounds) ∧
    (∀ (h0 : 0 ≤ target_idx) (h3 : target_idx < 3), ∃ lossValue,
      train_step forward features target_idx = Except.ok lossValue ∧ 0 ≤ lossValue) := by
  constructor
  · intro hbad
    unfold train_step
    rw [dif_neg (by omega)]
  · intro h0 h3
    refine ⟨absoluteLossSingle 5 (forward features) ⟨target_idx.toNat, by omega⟩, ?_, ?_⟩
    · unfold train_step
      rw [dif_pos ⟨h0, h3⟩]
    · unfold absoluteLossSingle
      have hce : (forward features) ⟨target_idx.toNat, by omega⟩ ≤
          Real.log (∑ j : Fin 3, Real.exp (forward features j)) := by
        have hle : Real.exp ((forward features) ⟨target_idx.toNat, by omega⟩) ≤
            ∑ j : Fin 3, Real.exp (forward features j) :=
          Finset.single_le_sum (fun j _ => (Real.exp_pos (forward features j)).le)
            (Finset.mem_univ _)
        calc (forward features) ⟨target_idx.toNat, by omega⟩
            = Real.log (Real.exp ((forward features) ⟨target_idx.toNat, by omega⟩)) := by
              rw [Real.log_exp]
          _ ≤ Real.log (∑ j : Fin 3, Real.exp (forward features j)) :=
              Real.log_le_log (Real.exp_pos _) hle
      have hpen : (0:ℝ) ≤ maxWrongProbR (forward features) ⟨target_idx.toNat, by omega⟩ ^ 2 *
          ((5:ℚ) : ℝ) := by
        apply mul_nonneg (sq_nonneg _)
        norm_num
      linarith

/-- C9 witness: the amended statement applied to the uniform model output at
the valid target 1. -/
theorem C9_witness :
    ((3:ℤ) < 0 ∨ 3 ≤ (3:ℤ)) ∧
    train_step (fun _ _ => (1:ℝ)/3) (fun _ => 0) 3 =
      Except.error TrainError.torchTargetOutOfBounds ∧
    (0:ℤ) ≤ 1 ∧ (1:ℤ) < 3 ∧
    (∃ lossValue, train_step (fun _ _ => (1:ℝ)/3) (fun _ => 0) 1 =
      Except.ok lossValue ∧ 0 ≤ lossValue) :=
  ⟨Or.inr (by norm_num),
    (C9_theorem (fun _ _ => (1:ℝ)/3) (fun _ => 0) 3).1 (Or.inr (by norm_num)),
    by norm_num, by norm_num,
    (C9_theorem (fun _ _ => (1:ℝ)/3) (fun _ => 0) 1).2 (by norm_num) (by norm_num)⟩

/-! AbsoluteLoss.forward over a batch (src/rl_engine.py, lines 109-130):
base cross-entropy (the torch library function `nn.CrossEntropyLoss`, a
parameter of the embedding) plus the batch mean of
`penalty_factor · (max wrong-class probability)²`. -/

/-- Zero out the target entry of a prediction row, as
`wrong_confidence.scatter_(1, targets.view(-1, 1), 0.0)` does. -/
def zeroOutTarget (p : Fin 3 → ℚ) (t : Fin 3) : Fin 3 → ℚ :=
  fun j => if j = t then 0 else p j

/-- `wrong_confidence.max(dim=1).values` for one row. -/
def maxWrongProb (p : Fin 3 → ℚ) (t : Fin 3) : ℚ :=
  max (zeroOutTarget p t 0) (max (zeroOutTarget p t 1) (zeroOutTarget p t 2))

/-- One row's regret penalty `(max_wrong_prob ** 2) * penalty_factor`. -/
def regretPenalty (penalty_factor : ℚ) (p : Fin 3 → ℚ) (t : Fin 3) : ℚ :=
  maxWrongProb p t ^ 2 * penalty_factor

/-- `regret_penalty.mean()` over the batch. -/
def regretMean (penalty_factor : ℚ) (predictions : List (Fin 3 → ℚ))
    (targets : List (Fin 3)) : ℚ :=
  ((predictions.zip targets).map (fun pt => regretPenalty penalty_factor pt.1 pt.2)).sum /
    ((predictions.zip targets).length : ℚ)

/-- Shallow embedding of `AbsoluteLoss.forward`: the base cross-entropy value
plus the mean regret penalty. -/
noncomputable def absoluteLoss (penalty_factor : ℚ)
    (baseLoss : List (Fin 3 → ℚ) → List (Fin 3) → ℝ)
    (predictions : List (Fin 3 → ℚ)) (targets : List (Fin 3)) : ℝ :=
  baseLoss predictions targets + ((regretMean penalty_factor predictions targets : ℚ) : ℝ)

/-- The claim's quantity: the model's probability on the highest-probability
INCORRECT class. -/
def maxIncorrectProb (p : Fin 3 → ℚ) (t : Fin 3) : ℚ :=
  if t = 0 then max (p 1) (p 2)
  else if t = 1 then max (p 0) (p 2)
  else max (p 0) (p 1)

theorem maxWrongProb_eq_maxIncorrect {p : Fin 3 → ℚ} {t : Fin 3}
    (hp : ∀ j, 0 ≤ p j) : maxWrongProb p t = maxIncorrectProb p t := by
  have e : ∀ a b : ℚ, 0 ≤ a → max 0 (max a b) = max a b := by
    intro a b ha
    exact max_eq_right (le_max_of_le_left ha)
  fin_cases t
  · show max (zeroOutTarget p 0 0) (max (zeroOutTarget p 0 1) (zeroOutTarget p 0 2)) =
      maxIncorrectProb p 0
    have e0 : zeroOutTarget p 0 0 = 0 := if_pos rfl
    have e1 : zeroOutTarget p 0 1 = p 1 := if_neg (by decide)
    have e2 : zeroOutTarget p 0 2 = p 2 := if_neg (by decide)
    have em : maxIncorrectProb p 0 = max (p 1) (p 2) := if_pos rfl
    rw [e0, e1, e2, em, e (p 1) (p 2) (hp 1)]
  · show max (zeroOutTarget p 1 0) (max (zeroOutTarget p 1 1) (zeroOutTarget p 1 2)) =
      maxIncorrectProb p 1
    have e0 : zeroOutTarget p 1 0 = p 0 := if_neg (by decide)
    have e1 : zeroOutTarget p 1 1 = 0 := if_pos rfl
    have e2 : zeroOutTarget p 1 2 = p 2 := if_neg (by decide)
    have em : maxIncorrectProb p 1 = max (p 0) (p 2) := by
      unfold maxIncorrectProb
      rw [if_neg (by decide), if_pos rfl]
    rw [e0, e1, e2, em, max_eq_right (hp 2)]
  · show max (zeroOutTarget p 2 0) (max (zeroOutTarget p 2 1) (zeroOutTarget p 2 2)) =
      maxIncorrectProb p 2
    have e0 : zeroOutTarget p 2 0 = p 0 := if_neg (by decide)
    have e1 : zeroOutTarget p 2 1 = p 1 := if_neg (by decide)
    have e2 : zeroOutTarget p 2 2 = 0 := if_pos rfl
    have em : maxIncorrectProb p 2 = max (p 0) (p 1) := by
      unfold maxIncorrectProb
      rw [if_neg (by decide), if_neg (by decide)]
    rw [e0, e1, e2, em, max_eq_left (hp 1)]

theorem listSum_le_of_forall2 {l l' : List ℚ} (h : List.Forall₂ (· ≤ ·) l l') :
    l.sum ≤ l'.sum := by
  induction h with
  | nil => exact le_refl 0
  | cons hab htail ih =>
    simp only [List.sum_cons]
    exact add_le_add hab ih

theorem listSum_lt_of_forall2 {l l' : List ℚ} (h : List.Forall₂ (· < ·) l l')
    (hne : l ≠ []) : l.sum < l'.sum := by
  cases h with
  | nil => exact absurd rfl hne
  | cons hab htail =>
    simp only [List.sum_cons]
    exact add_lt_add_of_lt_of_le hab
      (listSum_le_of_forall2 (htail.imp (fun _ _ h12 => le_of_lt h12)))

/-- C6: for two prediction batches with the same targets and the same base
cross-entropy value, if one assigns a strictly larger maximum probability to
an incorrect class on every sample (all probabilities being nonnegative, as
softmax outputs are), its AbsoluteLoss total — the base loss plus the batch
mean of penalty_factor times the squared max wrong-class probability — is
strictly larger. -/
theorem C6_theorem (penalty_factor : ℚ)
    (baseLoss : List (Fin 3 → ℚ) → List (Fin 3) → ℝ)
    (predictions predictions' : List (Fin 3 → ℚ)) (targets : List (Fin 3))
    (hpf : 0 < penalty_factor)
    (hlen : predictions.length = targets.length)
    (hlen2 : predictions'.length = targets.length)
    (hne : targets ≠ [])
    (hbase : baseLoss predictions targets = baseLoss predictions' targets)
    (hlt : List.Forall₂ (fun a b : (Fin 3 → ℚ) × Fin 3 =>
        a.2 = b.2 ∧ (∀ j, 0 ≤ a.1 j) ∧ (∀ j, 0 ≤ b.1 j) ∧
          maxIncorrectProb a.1 a.2 < maxIncorrectProb b.1 b.2)
      (predictions.zip targets) (predictions'.zip targets)) :
    absoluteLoss penalty_factor baseLoss predictions targets <
      absoluteLoss penalty_factor baseLoss predictions' targets := by
  have hmi_nonneg : ∀ (p : Fin 3 → ℚ) (t : Fin 3), (∀ j, 0 ≤ p j) →
      0 ≤ maxIncorrectProb p t := by
    intro p t hp
    unfold maxIncorrectProb
    split_ifs <;> exact le_max_of_le_left (hp _)
  have key : ∀ (u v : List ((Fin 3 → ℚ) × Fin 3)),
      List.Forall₂ (fun a b : (Fin 3 → ℚ) × Fin 3 =>
        a.2 = b.2 ∧ (∀ j, 0 ≤ a.1 j) ∧ (∀ j, 0 ≤ b.1 j) ∧
          maxIncorrectProb a.1 a.2 < maxIncorrectProb b.1 b.2) u v →
      List.Forall₂ (· < ·)
        (u.map (fun pt => regretPenalty penalty_factor pt.1 pt.2))
        (v.map (fun pt => regretPenalty penalty_factor pt.1 pt.2)) := by
    intro u v huv
    induction huv with
    | nil => exact List.Forall₂.nil
    | cons hab htail ih =>
      simp only [List.map_cons]
      refine List.Forall₂.cons ?_ ih
      obtain ⟨hteq, hann, hbnn, hmi⟩ := hab
      unfold regretPenalty
      rw [maxWrongProb_eq_maxIncorrect hann, maxWrongProb_eq_maxIncorrect hbnn, hteq]
      rw [hteq] at hmi
      refine mul_lt_mul_of_pos_right ?_ hpf
      refine pow_lt_pow_left₀ hmi ?_ (by norm_num)
      exact hmi_nonneg _ _ (by intro j; exact hann j)
  have hmap := key _ _ hlt
  have hzl : (predictions.zip targets).length = targets.length := by
    rw [List.length_zip, hlen, min_self]
  have hzl' : (predictions'.zip targets).length = targets.length := by
    rw [List.length_zip, hlen2, min_self]
  have htpos : 0 < targets.length := List.length_pos.2 hne
  have hzneq : (predictions.zip targets).map
      (fun pt => regretPenalty penalty_factor pt.1 pt.2) ≠ [] := by
    intro hc
    have hlc := congrArg List.length hc
    rw [List.length_map, hzl, List.length_nil] at hlc
    omega
  have hS := listSum_lt_of_forall2 hmap hzneq
  have hmean : regretMean penalty_factor predictions targets <
      regretMean penalty_factor predictions' targets := by
    unfold regretMean
    rw [hzl, hzl']
    have hnpos : (0:ℚ) < (targets.length : ℚ) := by exact_mod_cast htpos
    exact (div_lt_div_iff_of_pos_right hnpos).2 hS
  unfold absoluteLoss
  rw [hbase]
  apply add_lt_add_left
  exact_mod_cast hmean

/-- C6 witness: the theorem applied to two one-sample batches with target 0
and base loss constantly 0: wrong-class confidence 0.3 against 0.9. -/
theorem C6_witness :
    (0:ℚ) < 5 ∧
    maxIncorrectProb ![2/5, 3/10, 3/10] 0 < maxIncorrectProb ![1/10, 9/10, 9/10] 0 ∧
    absoluteLoss 5 (fun _ _ => 0) [![2/5, 3/10, 3/10]] [0] <
      absoluteLoss 5 (fun _ _ => 0) [![1/10, 9/10, 9/10]] [0] := by
  have hmi : maxIncorrectProb ![(2:ℚ)/5, 3/10, 3/10] 0 <
      maxIncorrectProb ![(1:ℚ)/10, 9/10, 9/10] 0 := by
    unfold maxIncorrectProb
    rw [if_pos rfl, if_pos rfl]
    norm_num
  refine ⟨by norm_num, hmi, ?_⟩
  refine C6_theorem 5 (fun _ _ => 0) _ _ _ (by norm_num) rfl rfl (by simp) rfl ?_
  refine List.Forall₂.cons ?_ List.Forall₂.nil
  refine ⟨rfl, ?_, ?_, ?_⟩
  · intro j
    fin_cases j <;> norm_num
  · intro j
    fin_cases j <;> norm_num
  · exact hmi

end BotBet
